import Mathlib

/-!
Verification development for the monty repository: an embedded, restricted
Python execution engine.  The definitions below are shallow embeddings of
the repository code:

- engine objects and the builtin registry from src/src/builtins.rs;
- the compile-time error surface exercised by src/tests/main.rs;
- the Python-side dataclass conversion layer from
  src/crates/monty-python/src/dataclass.rs;
- dataclass method-call dispatch from src/crates/monty-python/src/external.rs;
- a small evaluator and run loop, modelled from the specification, for the
  end-to-end scenarios of src/crates/monty/tests/main.rs.

Definitions whose Rust source is not part of the repository snapshot (the
evaluator internals, the Object display impl, Object::as_int, convert.rs)
are modelled from the specification and carry a doc comment saying so.
-/

namespace Monty

/-- Engine exception kinds, from the Exception and InternalRunError enums
used in src/src/builtins.rs and the exception taxonomy of the spec. -/
inductive Exc where
  | typeError (msg : String)
  | valueError (msg : String)
  | nameError (msg : String)
  | zeroDivisionError (msg : String)
  | attributeError (msg : String)
  | notImplementedError (msg : String)
  | overflowError (msg : String)
  | internalTodo (msg : String)
deriving DecidableEq

/-- Engine runtime values.  Mirrors the value model of the engine: the
Object enum used by src/src/builtins.rs and the public MontyObject type
constructed in src/crates/monty/tests/main.rs (Dataclass fields: name,
type_id, field_names, attrs as an ordered pair list, frozen).  Floats are
left out of the model; no verified claim depends on them. -/
inductive MontyObject where
  | int (i : Int)
  | str (s : String)
  | bool (b : Bool)
  | none
  | list (items : List MontyObject)
  | range (stop : Int)
  | exc (e : Exc)
  | dataclass (name : String) (typeId : Nat) (fieldNames : List String)
      (attrs : List (MontyObject × MontyObject)) (frozen : Bool)

/-- Engine-side type name of a value, used in error messages. -/
def typeName : MontyObject → String
  | .int _ => "int"
  | .str _ => "str"
  | .bool _ => "bool"
  | .none => "NoneType"
  | .list _ => "list"
  | .range _ => "range"
  | .exc _ => "Exception"
  | .dataclass name _ _ _ _ => name

/-- Single quotation mark, as it appears in engine error messages. -/
def sq (s : String) : String := "\x27" ++ s ++ "\x27"

/-- TypeError message for an unsupported + operation, matching the message
format asserted in src/tests/main.rs. -/
def unsupportedAdd (l r : String) : String :=
  "unsupported operand type(s) for +: " ++ sq l ++ " and " ++ sq r

/-- Modelled from the spec: Object::as_int, the conversion the range
builtin applies to its evaluated argument (its Rust source, in the value
model, is not part of the snapshot).  The spec requires the argument of
range to be an Int that is at least 0 and a Range value holds a
non-negative upper bound, so the conversion fails with an engine exception
on a non-Int object and on a negative Int. -/
def as_int : MontyObject → Except Exc Int
  | .int n =>
    if 0 ≤ n then .ok n
    else .error (.valueError ("range() argument must be a non-negative Int"))
  | o => .error (.typeError (sq (typeName o) ++ " object cannot be interpreted as an integer"))

/-- Body of the Builtins::Range arm of Builtins::call_function in
src/src/builtins.rs: exactly one argument is accepted (otherwise an
InternalRunError::TodoError), the argument is converted with as_int, and
the result is wrapped as Object::Range.  Arguments are taken already
evaluated; argument-expression evaluation is handled by the evaluator. -/
def rangeBuiltin (args : List MontyObject) : Except Exc MontyObject :=
  match args with
  | [a] => (as_int a).map MontyObject.range
  | _ => .error (.internalTodo ("range() takes exactly one argument"))

mutual

/-- Modelled from the spec: the debug (repr) rendering of engine values.
The Display and Debug impls for Object are not part of the snapshot; the
rendering follows the spec (user-facing str, list elements shown in repr
form, record fields in declaration order). -/
def objectRepr : MontyObject → String
  | .int n => toString n
  | .str s => sq s
  | .bool true => "True"
  | .bool false => "False"
  | .none => "None"
  | .range n => "range(0, " ++ toString n ++ ")"
  | .exc _ => "Exception"
  | .list xs => "[" ++ listReprAux xs ++ "]"
  | .dataclass name _ _ attrs _ => name ++ "(" ++ attrsReprAux attrs ++ ")"

/-- Comma-separated reprs of list elements. -/
def listReprAux : List MontyObject → String
  | [] => ""
  | [x] => objectRepr x
  | x :: rest => objectRepr x ++ ", " ++ listReprAux rest

/-- Comma-separated key=value reprs of record attrs. -/
def attrsReprAux : List (MontyObject × MontyObject) → String
  | [] => ""
  | [(k, v)] => objectRepr k ++ "=" ++ objectRepr v
  | (k, v) :: rest => objectRepr k ++ "=" ++ objectRepr v ++ ", " ++ attrsReprAux rest

end

/-- Modelled from the spec: the user-facing str rendering of an engine
value (the Display impl for Object used by the print builtin is not part
of the snapshot).  A string displays as its own contents; every other
value displays as its repr. -/
def objectStr : MontyObject → String
  | .str s => s
  | o => objectRepr o

/-- Loop body of the Builtins::Print arm of Builtins::call_function in
src/src/builtins.rs: the first argument is written as is, every later
argument is preceded by a single space.  The index argument mirrors the
enumerate counter of the Rust loop. -/
def printLoop : List MontyObject → Nat → String
  | [], _ => ""
  | a :: rest, i =>
    (if i == 0 then objectStr a else " " ++ objectStr a) ++ printLoop rest (i + 1)

/-- The Builtins::Print arm of Builtins::call_function in
src/src/builtins.rs: write the space-separated str forms of the arguments
followed by one newline, and return Object::None.  The stdout sink is
modelled as the returned string; arguments are taken already evaluated. -/
def printBuiltin (args : List MontyObject) : String × MontyObject :=
  (printLoop args 0 ++ "\n", MontyObject.none)

/-- Space-joined concatenation of rendered arguments; the reference form
against which the print loop is verified. -/
def spaceJoined : List String → String
  | [] => ""
  | [s] => s
  | s :: rest => s ++ " " ++ spaceJoined rest

/-! ### Compile-time error surface (Executor::new), for claim C1 -/

/-- Source span: start line, start column, end line, end column. -/
structure Span where
  startLine : Nat
  startCol : Nat
  endLine : Nat
  endCol : Nat
deriving DecidableEq

/-- Compile-time error: kind tag, message, and source span. -/
structure ParseErr where
  kind : String
  msg : String
  span : Span
deriving DecidableEq

/-- Single-line summary of a compile-time error, in the format asserted by
src/tests/main.rs and documented by the spec test-harness expectations. -/
def ParseErr.summary (e : ParseErr) : String :=
  "Exc: (" ++ toString e.span.startLine ++ "-" ++ toString e.span.startCol ++
    " to " ++ toString e.span.endLine ++ "-" ++ toString e.span.endCol ++ ") " ++
    e.kind ++ ": " ++ e.msg

/-- Constant expressions as delivered by the external parser, with source
spans.  This is the fragment exercised by the compile-time tests. -/
inductive CExpr where
  | intLit (n : Int) (sp : Span)
  | strLit (s : String) (sp : Span)
  | binAdd (l r : CExpr) (sp : Span)

/-- Static types of constant expressions. -/
inductive Ty where
  | int
  | str
deriving DecidableEq

/-- Name of a static type, as used in error messages. -/
def tyName : Ty → String
  | .int => "int"
  | .str => "str"

/-- Modelled from the spec: the compile-time check Executor::new performs
on constant expressions (the Executor source is not part of the snapshot;
src/tests/main.rs pins its behaviour).  The + operator is typed by the
operator table of the spec: Int+Int and Str+Str are accepted, a mixed
Int/Str operand pair is a TypeError carrying the operand type names and
the span of the whole operation. -/
def checkExpr : CExpr → Except ParseErr Ty
  | .intLit _ _ => .ok .int
  | .strLit _ _ => .ok .str
  | .binAdd l r sp => do
    let lt ← checkExpr l
    let rt ← checkExpr r
    match lt, rt with
    | .int, .int => .ok .int
    | .str, .str => .ok .str
    | _, _ => .error ⟨"TypeError", unsupportedAdd (tyName lt) (tyName rt), sp⟩

/-- A compiled program: the retained, reusable AST. -/
structure Executor where
  ast : CExpr

/-- Modelled from the spec: Executor::new parses and checks source text,
returning either a compiled program or a compile-time error; it is the
compile entry point of the programmatic surface. -/
def Executor.new (e : CExpr) : Except ParseErr Executor :=
  (checkExpr e).map (fun _ => Executor.mk e)

/-- Whether a fallible computation succeeded. -/
def exceptIsOk : Except ε α → Bool
  | .ok _ => true
  | .error _ => false

/-- The AST the external parser produces for the source text 1 + \x271\x27:
an Int literal at columns 1-2, a Str literal at columns 5-8, and the +
operation spanning columns 1-8 of line 1. -/
def addIntStrAst : CExpr :=
  .binAdd (.intLit 1 ⟨1, 1, 1, 2⟩) (.strLit "1" ⟨1, 5, 1, 8⟩) ⟨1, 1, 1, 8⟩

/-- The compile-time error produced for the source text 1 + \x271\x27. -/
def addIntStrErr : ParseErr :=
  ⟨"TypeError", unsupportedAdd "int" "str", ⟨1, 1, 1, 8⟩⟩

/-! ### Host (Python-side) values and Python equality, from
src/crates/monty-python/src/dataclass.rs -/

/-- Host-side Python exceptions raised by the conversion layer and the
PyUnknownDataclass methods in dataclass.rs. -/
inductive PyErr where
  | typeError (msg : String)
  | attributeError (msg : String)
  | runtimeError (msg : String)
  | keyError (msg : String)
  | frozenInstanceError (msg : String)
deriving DecidableEq

/-- Host (Python) values of the model.  inst models an instance of an
original, registered dataclass type (identified by its type id) built by
calling its constructor with keyword arguments; unknownRecord models a
PyUnknownDataclass instance with the fields of the pyclass in
dataclass.rs: name, declared field names, an attrs dict (ordered pair
list with the PyDict invariants), and the frozen flag. -/
inductive HostValue where
  | int (i : Int)
  | str (s : String)
  | bool (b : Bool)
  | none
  | list (items : List HostValue)
  | range (stop : Int)
  | exc (e : Exc)
  | inst (ty : Nat) (kwargs : List (String × HostValue))
  | unknownRecord (name : String) (fieldNames : List String)
      (attrs : List (HostValue × HostValue)) (frozen : Bool)

mutual

/-- Modelled Python equality (the == operator of the host language) on
host values: numbers compare with True/False behaving as 1/0, lists
elementwise, reconstructed dataclass instances by type and field values,
UnknownDataclass instances by name and attrs (the __eq__ of
PyUnknownDataclass in dataclass.rs, which ignores field order via PyDict
equality), and cross-type comparison is false. -/
def pyBeq : HostValue → HostValue → Bool
  | .int a, .int b => a == b
  | .int a, .bool b => a == (if b then 1 else 0)
  | .bool a, .int b => (if a then (1 : Int) else 0) == b
  | .bool a, .bool b => a == b
  | .str a, .str b => a == b
  | .none, .none => true
  | .range a, .range b => a == b
  | .exc a, .exc b => a == b
  | .list a, .list b => pyBeqList a b
  | .inst t1 k1, .inst t2 k2 => t1 == t2 && pyBeqKw k1 k2
  | .unknownRecord n1 _ a1 _, .unknownRecord n2 _ a2 _ => n1 == n2 && pyDictEq a1 a2
  | _, _ => false
termination_by a b => sizeOf a + sizeOf b
decreasing_by all_goals (simp_wf <;> omega)

/-- Elementwise Python equality of two lists. -/
def pyBeqList : List HostValue → List HostValue → Bool
  | [], [] => true
  | x :: xs, y :: ys => pyBeq x y && pyBeqList xs ys
  | _, _ => false
termination_by a b => sizeOf a + sizeOf b
decreasing_by all_goals (simp_wf <;> omega)

/-- Pointwise Python equality of two keyword-argument lists. -/
def pyBeqKw : List (String × HostValue) → List (String × HostValue) → Bool
  | [], [] => true
  | (k1, v1) :: xs, (k2, v2) :: ys => k1 == k2 && pyBeq v1 v2 && pyBeqKw xs ys
  | _, _ => false
termination_by a b => sizeOf a + sizeOf b
decreasing_by all_goals (simp_wf <;> omega)

/-- Python dict equality on the ordered-pair-list model: equal lengths and
every entry of the left dict has a Python-equal counterpart in the right
dict.  This is equality as unordered key to value mappings, the semantics
of the PyDict comparison used by PyUnknownDataclass::__eq__. -/
def pyDictEq (a b : List (HostValue × HostValue)) : Bool :=
  a.length == b.length && dictSubset a b
termination_by sizeOf a + sizeOf b + 1
decreasing_by all_goals (simp_wf <;> omega)

/-- Every entry of the first dict is matched in the second. -/
def dictSubset : List (HostValue × HostValue) → List (HostValue × HostValue) → Bool
  | [], _ => true
  | (k, v) :: rest, b => findAndCompare k v b && dictSubset rest b
termination_by a b => sizeOf a + sizeOf b
decreasing_by all_goals (simp_wf <;> omega)

/-- Scan a dict for the first entry whose key is Python-equal to k and
compare its value with v.  On dicts with pairwise distinct keys (the
PyDict invariant) this is exactly the b[k] == v test of Python dict
equality. -/
def findAndCompare (k v : HostValue) : List (HostValue × HostValue) → Bool
  | [] => false
  | (k2, v2) :: rest => if pyBeq k k2 then pyBeq v v2 else findAndCompare k v rest
termination_by l => sizeOf k + sizeOf v + sizeOf l
decreasing_by all_goals (simp_wf <;> omega)

end

/-- First-match lookup in a modelled PyDict: the value of the first entry
whose key is Python-equal to the requested key (PyDict get_item). -/
def dictGet (ps : List (HostValue × HostValue)) (key : HostValue) : Option HostValue :=
  match ps with
  | [] => Option.none
  | (k, v) :: rest => if pyBeq k key then some v else dictGet rest key

/-- PyDict set_item on the model: replace the value of the first entry
with a Python-equal key, keeping the stored key and its position, else
append the new entry at the end (Python dict insertion-order update). -/
def dictSet (ps : List (HostValue × HostValue)) (key val : HostValue) :
    List (HostValue × HostValue) :=
  match ps with
  | [] => [(key, val)]
  | (k, v) :: rest =>
    if pyBeq k key then (k, val) :: rest else (k, v) :: dictSet rest key val

/-- PyDict set_item for string-keyed kwargs dicts. -/
def dictSetStr (ps : List (String × HostValue)) (key : String) (val : HostValue) :
    List (String × HostValue) :=
  match ps with
  | [] => [(key, val)]
  | (k, v) :: rest =>
    if k == key then (k, val) :: rest else (k, v) :: dictSetStr rest key val

/-- Key freshness: the key is Python-equal to no key of the dict, in
either direction. -/
def keyFresh (key : HostValue) : List (HostValue × HostValue) → Bool
  | [] => true
  | (k, _) :: rest => !pyBeq key k && !pyBeq k key && keyFresh key rest

/-- Pairwise distinctness of dict keys: the invariant every dict built by
PyDict set_item satisfies. -/
def keysDistinct : List (HostValue × HostValue) → Bool
  | [] => true
  | (k, _) :: rest => keyFresh k rest && keysDistinct rest

/-- The key-distinctness relation between dict entries: the keys are not
Python-equal in either direction. -/
def keyDistinctRel (p q : HostValue × HostValue) : Prop :=
  pyBeq p.1 q.1 = false ∧ pyBeq q.1 p.1 = false

mutual

/-- Well-formedness of a host value: every attrs dict of every nested
UnknownDataclass has pairwise distinct keys, as PyDict construction
guarantees. -/
def wfVal : HostValue → Bool
  | .list xs => wfValList xs
  | .inst _ kw => wfValKw kw
  | .unknownRecord _ _ attrs _ => wfDict attrs
  | _ => true
termination_by v => sizeOf v
decreasing_by all_goals (simp_wf <;> omega)

/-- Well-formedness of every element of a list. -/
def wfValList : List HostValue → Bool
  | [] => true
  | x :: rest => wfVal x && wfValList rest
termination_by l => sizeOf l
decreasing_by all_goals (simp_wf <;> omega)

/-- Well-formedness of every value of a kwargs list. -/
def wfValKw : List (String × HostValue) → Bool
  | [] => true
  | (_, v) :: rest => wfVal v && wfValKw rest
termination_by l => sizeOf l
decreasing_by all_goals (simp_wf <;> omega)

/-- Well-formedness of every key and value of a dict. -/
def wfPairs : List (HostValue × HostValue) → Bool
  | [] => true
  | (k, v) :: rest => wfVal k && wfVal v && wfPairs rest
termination_by l => sizeOf l
decreasing_by all_goals (simp_wf <;> omega)

/-- Well-formedness of a dict: distinct keys and well-formed entries. -/
def wfDict (ps : List (HostValue × HostValue)) : Bool :=
  keysDistinct ps && wfPairs ps
termination_by sizeOf ps + 1
decreasing_by all_goals (simp_wf <;> omega)

end

/-! ### Record registry and engine-to-host conversion, from
src/crates/monty-python/src/dataclass.rs -/

/-- The dataclass registry DcRegistry of dataclass.rs: a mapping from the
type id of a host record type (pointer identity of the type object,
modelled as a Nat) to the host type itself (also identified by that id in
the model).  The underlying PyDict is shared by reference between
clones. -/
def DcRegistry := List (Nat × Nat)

/-- DcRegistry::get — look up an original host type by type id. -/
def regGet (reg : DcRegistry) (typeId : Nat) : Option Nat :=
  match reg with
  | [] => Option.none
  | (k, t) :: rest => if k == typeId then some t else regGet rest typeId

/-- DcRegistry::insert — register a host type keyed by its identity;
idempotent, re-registering overwrites silently (PyDict set_item). -/
def regInsert (reg : DcRegistry) (ty : Nat) : DcRegistry :=
  match reg with
  | [] => [(ty, ty)]
  | (k, t) :: rest => if k == ty then (k, ty) :: rest else (k, t) :: regInsert rest ty

mutual

/-- Modelled from the spec: monty_to_py of convert.rs (not part of the
snapshot) — engine-to-host conversion.  Primitives map 1:1; a Dataclass
converts through the registry dispatch of dataclass_to_py, whose source
is dataclass.rs and is embedded here verbatim: a registered type id
yields an instance of the original host type built from string-keyed
declared-field kwargs, an unregistered one yields a PyUnknownDataclass
stand-in carrying all attrs. -/
def montyToPy (reg : DcRegistry) : MontyObject → HostValue
  | .int i => .int i
  | .str s => .str s
  | .bool b => .bool b
  | .none => .none
  | .range n => .range n
  | .exc e => .exc e
  | .list xs => .list (montyToPyList reg xs)
  | .dataclass name typeId fieldNames attrs frozen =>
    match regGet reg typeId with
    | some ty => .inst ty (buildKwargs reg fieldNames [] attrs)
    | Option.none => .unknownRecord name fieldNames (buildAttrsDict reg [] attrs) frozen
termination_by o => sizeOf o
decreasing_by all_goals (simp_wf <;> omega)

/-- Elementwise conversion of a list of engine values. -/
def montyToPyList (reg : DcRegistry) : List MontyObject → List HostValue
  | [] => []
  | x :: rest => montyToPy reg x :: montyToPyList reg rest
termination_by l => sizeOf l
decreasing_by all_goals (simp_wf <;> omega)

/-- The kwargs construction loop of dataclass_to_py in dataclass.rs:
iterate over attrs; skip entries whose key is not a String; include an
entry in the constructor kwargs dict only when its key is one of the
declared field names. -/
def buildKwargs (reg : DcRegistry) (fieldNames : List String)
    (acc : List (String × HostValue)) :
    List (MontyObject × MontyObject) → List (String × HostValue)
  | [] => acc
  | (k, v) :: rest =>
    match k with
    | .str s =>
      if fieldNames.any (fun f => f == s) then
        buildKwargs reg fieldNames (dictSetStr acc s (montyToPy reg v)) rest
      else
        buildKwargs reg fieldNames acc rest
    | _ => buildKwargs reg fieldNames acc rest
termination_by l => sizeOf l
decreasing_by all_goals (simp_wf <;> omega)

/-- The attrs-dict construction of PyUnknownDataclass::new in
dataclass.rs: convert every key and value and insert them with PyDict
set_item. -/
def buildAttrsDict (reg : DcRegistry) (acc : List (HostValue × HostValue)) :
    List (MontyObject × MontyObject) → List (HostValue × HostValue)
  | [] => acc
  | (k, v) :: rest =>
    buildAttrsDict reg (dictSet acc (montyToPy reg k) (montyToPy reg v)) rest
termination_by l => sizeOf l
decreasing_by all_goals (simp_wf <;> omega)

end

/-- dataclass_to_py of dataclass.rs: convert an engine Dataclass to a host
value.  When the type id is present in the registry, the original host
type is instantiated by calling its constructor with kwargs drawn from
String keys that are declared field names; otherwise a
PyUnknownDataclass stand-in is created with all attrs. -/
def dataclass_to_py (reg : DcRegistry) (name : String) (typeId : Nat)
    (fieldNames : List String) (attrs : List (MontyObject × MontyObject))
    (frozen : Bool) : HostValue :=
  match regGet reg typeId with
  | some ty => .inst ty (buildKwargs reg fieldNames [] attrs)
  | Option.none => .unknownRecord name fieldNames (buildAttrsDict reg [] attrs) frozen

/-! ### PyUnknownDataclass methods, from
src/crates/monty-python/src/dataclass.rs -/

/-- PyUnknownDataclass::__eq__ from dataclass.rs: if the other value is
not an UnknownDataclass the comparison is Ok(false); otherwise the result
is false on a name mismatch and PyDict equality of the attrs dicts
otherwise (field names and the frozen flag are not compared). -/
def unknownDataclassEq (selfName : String) (selfAttrs : List (HostValue × HostValue))
    (other : HostValue) : Except PyErr Bool :=
  match other with
  | .unknownRecord otherName _ otherAttrs _ =>
    if selfName != otherName then .ok false
    else .ok (pyDictEq selfAttrs otherAttrs)
  | _ => .ok false

/-- One item fed to the hasher state of PyUnknownDataclass::__hash__: a
declared field name, or the host hash of a field value. -/
inductive HashItem where
  | fieldName (s : String)
  | valueHash (h : Int)
deriving DecidableEq

/-- The field loop of PyUnknownDataclass::__hash__ in dataclass.rs: for
each declared field name, in declaration order, feed the name to the
hasher, then, when the attrs dict holds the field, feed the host hash of
its value; a hashing error of the value propagates out.  The hasher state
is modelled as the list of items fed to it; valueHash models the host
hash call on the field value. -/
def hashLoop (valueHash : HostValue → Except PyErr Int)
    (attrs : List (HostValue × HostValue)) :
    List String → List HashItem → Except PyErr (List HashItem)
  | [], st => .ok st
  | f :: rest, st =>
    match dictGet attrs (.str f) with
    | some v =>
      match valueHash v with
      | .ok h =>
        hashLoop valueHash attrs rest (st ++ [HashItem.fieldName f, HashItem.valueHash h])
      | .error e => .error e
    | Option.none => hashLoop valueHash attrs rest (st ++ [HashItem.fieldName f])

/-- PyUnknownDataclass::__hash__ from dataclass.rs: a non-frozen instance
is unhashable (host TypeError); a frozen one hashes by feeding each
declared field name and the hash of its value to a fresh hasher, in
declaration order, and finishing.  finish models DefaultHasher::finish
together with the signed reinterpretation of the result. -/
def unknownDataclassHash (valueHash : HostValue → Except PyErr Int)
    (finish : List HashItem → Int) (fieldNames : List String)
    (attrs : List (HostValue × HostValue)) (frozen : Bool) : Except PyErr Int :=
  if !frozen then
    .error (.typeError ("unhashable type: \x27UnknownDataclass\x27"))
  else
    (hashLoop valueHash attrs fieldNames []).map finish

/-- Reference form of the hash trace: each declared field contributes its
name followed by the hash of its value (when present), segments
concatenated in declaration order. -/
def hashTrace (valueHash : HostValue → Except PyErr Int)
    (attrs : List (HostValue × HostValue)) :
    List String → Except PyErr (List HashItem)
  | [] => .ok []
  | f :: rest => do
    let seg ←
      match dictGet attrs (.str f) with
      | some v => (valueHash v).map (fun h => [HashItem.fieldName f, HashItem.valueHash h])
      | Option.none => pure [HashItem.fieldName f]
    let tail ← hashTrace valueHash attrs rest
    pure (seg ++ tail)

/-! ### Method-call dispatch, from src/crates/monty-python/src/external.rs -/

/-- Engine-side exception record produced from a host exception; the
conversion exc_py_to_monty (exceptions.rs, not part of the snapshot)
preserves kind and message per the spec. -/
structure MontyExc where
  kind : String
  msg : String
deriving DecidableEq

/-- The reply the driver passes back to the engine after an external or
method call: a returned value or an error to raise. -/
inductive ExternalResult where
  | ret (v : MontyObject)
  | error (e : MontyExc)

/-- Modelled from the spec: exc_py_to_monty of exceptions.rs (not part of
the snapshot) — converts a host exception to an engine exception record
preserving kind and message. -/
def excPyToMonty : PyErr → MontyExc
  | .typeError m => ⟨"TypeError", m⟩
  | .attributeError m => ⟨"AttributeError", m⟩
  | .runtimeError m => ⟨"RuntimeError", m⟩
  | .keyError m => ⟨"KeyError", m⟩
  | .frozenInstanceError m => ⟨"FrozenInstanceError", m⟩

/-- Host interactions performed by method dispatch: attribute lookup on a
host object and calling a host callable with positional and keyword
arguments.  Both may raise a host exception. -/
structure HostOracle where
  getattr : HostValue → String → Except PyErr HostValue
  callMethod : HostValue → List HostValue → List (HostValue × HostValue) →
    Except PyErr HostValue

/-- dispatch_method_call_inner from external.rs: the first positional
argument is the dataclass self; when it is missing the dispatch fails at
once with a host RuntimeError("Method call missing self argument").
Otherwise self is converted to a host object, the method is looked up by
getattr, called with the remaining arguments (call0 when there are none),
and the result is converted back (pyToMonty stands for py_to_monty of
convert.rs, which is not part of the snapshot). -/
def dispatch_method_call_inner (oracle : HostOracle)
    (pyToMonty : HostValue → Except PyErr MontyObject) (reg : DcRegistry)
    (functionName : String) (args : List MontyObject)
    (kwargs : List (MontyObject × MontyObject)) : Except PyErr MontyObject :=
  match args with
  | [] => .error (.runtimeError ("Method call missing self argument"))
  | selfObj :: rest => do
    let pySelf := montyToPy reg selfObj
    let method ← oracle.getattr pySelf functionName
    let result ←
      if rest.isEmpty && kwargs.isEmpty then
        oracle.callMethod method [] []
      else
        oracle.callMethod method (montyToPyList reg rest) (buildAttrsDict reg [] kwargs)
    pyToMonty result

/-- dispatch_method_call from external.rs: wrap the inner dispatch,
converting a host exception to an engine error reply. -/
def dispatch_method_call (oracle : HostOracle)
    (pyToMonty : HostValue → Except PyErr MontyObject) (reg : DcRegistry)
    (functionName : String) (args : List MontyObject)
    (kwargs : List (MontyObject × MontyObject)) : ExternalResult :=
  match dispatch_method_call_inner oracle pyToMonty reg functionName args kwargs with
  | .ok v => .ret v
  | .error e => .error (excPyToMonty e)

/-! ### Evaluator and run loop, modelled from the spec, for the scenarios
of src/crates/monty/tests/main.rs -/

/-- Modelled from the spec: expressions of the evaluator fragment the
verified end-to-end scenarios exercise — literals, name lookup, the +
operator, and an argumentless method call on a receiver expression.  (The
evaluator source is not part of the snapshot.) -/
inductive Expr where
  | lit (v : MontyObject)
  | name (id : String)
  | binAdd (l r : Expr)
  | methodCall (recv : Expr) (method : String)

/-- Modelled from the spec: statements of the evaluator fragment —
expression statements, simple assignment, and pass. -/
inductive Stmt where
  | expr (e : Expr)
  | assign (target : String) (e : Expr)
  | pass

/-- Outcome of evaluating an expression or statement list: a value, a
propagating engine exception, or a suspension carrying a MethodCall frame
exit (receiver, method name, positional args with the receiver first, per
the spec convention). -/
inductive EvalOut where
  | ok (v : MontyObject)
  | raise (e : Exc)
  | suspend (receiver : MontyObject) (method : String) (args : List MontyObject)

/-- Innermost-scope-first lookup in the environment. -/
def lookupEnv (env : List (String × MontyObject)) (x : String) : Option MontyObject :=
  match env with
  | [] => Option.none
  | (k, v) :: rest => if k == x then some v else lookupEnv rest x

/-- Modelled from the spec: overflow-checked signed 64-bit addition —
arithmetic overflow raises an engine exception, never wraps. -/
def intAdd (a b : Int) : Except Exc Int :=
  if -(2 ^ 63) ≤ a + b ∧ a + b < 2 ^ 63 then .ok (a + b)
  else .error (.overflowError ("integer addition overflowed"))

/-- Modelled from the spec: the + operator on evaluated operands, per the
operator table — Int+Int (overflow checked, with True/False behaving as
1/0 in arithmetic), Str+Str concatenation, List+List concatenation, and a
TypeError carrying the operand type names otherwise. -/
def evalBinAdd (l r : MontyObject) : Except Exc MontyObject :=
  match l, r with
  | .str a, .str b => .ok (.str (a ++ b))
  | .list a, .list b => .ok (.list (a ++ b))
  | .int a, .int b => (intAdd a b).map MontyObject.int
  | .int a, .bool b => (intAdd a (if b then 1 else 0)).map MontyObject.int
  | .bool a, .int b => (intAdd (if a then 1 else 0) b).map MontyObject.int
  | .bool a, .bool b =>
    (intAdd (if a then 1 else 0) (if b then 1 else 0)).map MontyObject.int
  | _, _ => .error (.typeError (unsupportedAdd (typeName l) (typeName r)))

/-- Modelled from the spec: expression evaluation — literals evaluate to
themselves, names resolve innermost-first (NameError when unbound), +
evaluates left then right and applies the operator, and a method call on
a record value suspends with a MethodCall frame exit whose first
positional argument is the receiver; a method call on a non-record
receiver is an AttributeError.  Exceptions and suspensions
short-circuit. -/
def evalExpr (env : List (String × MontyObject)) : Expr → EvalOut
  | .lit v => .ok v
  | .name x =>
    match lookupEnv env x with
    | some v => .ok v
    | Option.none => .raise (.nameError ("name " ++ sq x ++ " is not defined"))
  | .binAdd l r =>
    match evalExpr env l with
    | .ok lv =>
      match evalExpr env r with
      | .ok rv =>
        match evalBinAdd lv rv with
        | .ok v => .ok v
        | .error e => .raise e
      | out => out
    | out => out
  | .methodCall recvE m =>
    match evalExpr env recvE with
    | .ok recv =>
      match recv with
      | .dataclass name typeId fieldNames attrs frozen =>
        .suspend (.dataclass name typeId fieldNames attrs frozen) m
          [.dataclass name typeId fieldNames attrs frozen]
      | v => .raise (.attributeError (sq (typeName v) ++ " object has no attribute " ++ sq m))
    | out => out

/-- Modelled from the spec: statement-list execution — statements run in
order, an expression statement records its value as the candidate result,
assignment binds in the innermost scope, and the value of the program is
the value of its last evaluated expression (None when there is none).
Exceptions and suspensions terminate the list. -/
def execStmts (env : List (String × MontyObject)) (last : MontyObject) :
    List Stmt → EvalOut
  | [] => .ok last
  | .pass :: rest => execStmts env last rest
  | .expr e :: rest =>
    match evalExpr env e with
    | .ok v => execStmts env v rest
    | out => out
  | .assign x e :: rest =>
    match evalExpr env e with
    | .ok v => execStmts ((x, v) :: env) last rest
    | out => out

/-- Terminal exit of a run: a returned value or a raised exception (no
limits are enforced by run_no_limits). -/
inductive RunExit where
  | ret (v : MontyObject)
  | raise (e : Exc)

/-- Modelled from the spec: standard-mode execution — the evaluator runs
with no suspension handler wired up, so a MethodCall suspension is
immediately converted into NotImplementedError("Method call X not
implemented with standard execution") naming the method. -/
def standardRun (prog : List Stmt) (env : List (String × MontyObject)) : RunExit :=
  match execStmts env .none prog with
  | .ok v => .ret v
  | .raise e => .raise e
  | .suspend _ m _ =>
    .raise (.notImplementedError
      ("Method call " ++ sq m ++ " not implemented with standard execution"))

/-- MontyRun of the monty crate, modelled from the spec: the compiled
program retains its AST and declared argument names across runs. -/
structure MontyRun where
  ast : List Stmt
  argNames : List String

/-- MontyRun::run_no_limits, modelled from the spec: every run builds a
fresh environment by binding the declared argument names to the supplied
arguments, then executes the retained AST in standard mode. -/
def MontyRun.run_no_limits (m : MontyRun) (args : List MontyObject) : RunExit :=
  standardRun m.ast (m.argNames.zip args)

/-- The Point record of the standard-mode method-call test in
src/crates/monty/tests/main.rs: name Point, type id 0, declared fields x
and y, attrs x=1 and y=2, frozen. -/
def pointObj : MontyObject :=
  .dataclass "Point" 0 ["x", "y"]
    [(.str "x", .int 1), (.str "y", .int 2)] true

/-- The program point.sum() with declared argument point, as compiled by
MontyRun::new in the standard-mode method-call test. -/
def pointRun : MontyRun :=
  ⟨[.expr (.methodCall (.name "point") "sum")], ["point"]⟩

/-- The program 1 + 2 with no declared arguments, as compiled by
MontyRun::new in the repeat_exec test. -/
def addRun : MontyRun :=
  ⟨[.expr (.binAdd (.lit (.int 1)) (.lit (.int 2)))], []⟩

/-- A host oracle that rejects every interaction; used to witness
properties that hold for every oracle. -/
def nullOracle : HostOracle :=
  ⟨fun _ _ => .error (.typeError ("unused")),
   fun _ _ _ => .error (.typeError ("unused"))⟩

/-- A result conversion that rejects every value; used to witness
properties that hold for every conversion. -/
def nullPyToMonty : HostValue → Except PyErr MontyObject :=
  fun _ => .error (.typeError ("unused"))

/-! ### Theorems for claims C1, C4, C8 -/

/-- C1 counterexample: compiling the source 1 + \x271\x27 does not succeed;
Executor::new itself returns the error, so the claim that compilation
succeeds and the TypeError is surfaced from run is false (the repository
test lists this source under parse_error_tests). -/
theorem C1_counterexample : exceptIsOk (Executor.new addIntStrAst) = false := rfl

/-- C1 amended: for the source 1 + \x271\x27 compilation fails: Executor::new
returns a TypeError with message "unsupported operand type(s) for +:
\x27int\x27 and \x27str\x27" and span (1,1)-(1,8); run is never reached,
matching the spec rule that parse errors are returned from compile and
never thrown during run. -/
theorem C1_compile_error :
    Executor.new addIntStrAst = .error addIntStrErr ∧
      addIntStrErr.summary =
        "Exc: (1-1 to 1-8) TypeError: unsupported operand type(s) for +: \x27int\x27 and \x27str\x27" :=
  ⟨rfl, rfl⟩

/-- C4: the range builtin accepts exactly one Int argument n with 0 ≤ n and
returns the Range value with upper bound n; every other invocation (wrong
argument count, non-Int argument, negative Int) produces an engine
exception and never a Range value. -/
theorem C4_range_builtin :
    (∀ n : Int, 0 ≤ n → rangeBuiltin [MontyObject.int n] = .ok (.range n)) ∧
      (∀ args r, rangeBuiltin args = .ok r →
        ∃ n : Int, 0 ≤ n ∧ args = [MontyObject.int n] ∧ r = .range n) ∧
      (∀ args, (¬ ∃ n : Int, 0 ≤ n ∧ args = [MontyObject.int n]) →
        ∃ e, rangeBuiltin args = .error e) := by
  refine ⟨?_, ?_, ?_⟩
  · intro n hn
    simp [rangeBuiltin, as_int, hn, Except.map]
  · intro args r h
    match args with
    | [] => simp [rangeBuiltin] at h
    | [a] =>
      match a with
      | .int n =>
        by_cases hn : 0 ≤ n
        · refine ⟨n, hn, rfl, ?_⟩
          simp [rangeBuiltin, as_int, hn, Except.map] at h
          exact h.symm
        · simp [rangeBuiltin, as_int, hn, Except.map] at h
      | .str s => simp [rangeBuiltin, as_int, Except.map] at h
      | .bool b => simp [rangeBuiltin, as_int, Except.map] at h
      | .none => simp [rangeBuiltin, as_int, Except.map] at h
      | .list xs => simp [rangeBuiltin, as_int, Except.map] at h
      | .range m => simp [rangeBuiltin, as_int, Except.map] at h
      | .exc e => simp [rangeBuiltin, as_int, Except.map] at h
      | .dataclass a b c d f => simp [rangeBuiltin, as_int, Except.map] at h
    | a :: b :: rest => simp [rangeBuiltin] at h
  · intro args hno
    match h : rangeBuiltin args with
    | .error e => exact ⟨e, rfl⟩
    | .ok r =>
      exfalso
      match args with
      | [] => simp [rangeBuiltin] at h
      | [a] =>
        match a with
        | .int n =>
          by_cases hn : 0 ≤ n
          · exact hno ⟨n, hn, rfl⟩
          · simp [rangeBuiltin, as_int, hn, Except.map] at h
        | .str s => simp [rangeBuiltin, as_int, Except.map] at h
        | .bool b => simp [rangeBuiltin, as_int, Except.map] at h
        | .none => simp [rangeBuiltin, as_int, Except.map] at h
        | .list xs => simp [rangeBuiltin, as_int, Except.map] at h
        | .range m => simp [rangeBuiltin, as_int, Except.map] at h
        | .exc e => simp [rangeBuiltin, as_int, Except.map] at h
        | .dataclass a b c d f => simp [rangeBuiltin, as_int, Except.map] at h
      | a :: b :: rest => simp [rangeBuiltin] at h

/-- C4 witness: range(2) returns Range(2); range of a string argument
fails with an engine exception. -/
theorem C4_range_builtin_witness :
    rangeBuiltin [MontyObject.int 2] = .ok (.range 2) ∧
      ∃ e, rangeBuiltin [MontyObject.str "a"] = .error e := by
  refine ⟨C4_range_builtin.1 2 (by decide), C4_range_builtin.2.2 [MontyObject.str "a"] ?_⟩
  rintro ⟨n, -, h⟩
  simp at h

/-- Suffix form of the print loop: from index 1 onward every argument is
written preceded by one space. -/
theorem printLoop_succ (rest : List MontyObject) :
    ∀ i, printLoop rest (i + 1) =
      (rest.map (fun o => " " ++ objectStr o)).foldr (· ++ ·) "" := by
  induction rest with
  | nil => intro i; rfl
  | cons a t ih =>
    intro i
    simp only [printLoop, List.map, List.foldr, ih (i + 1)]
    simp

/-- Space-joined strings as a head plus space-prefixed tail fold. -/
theorem spaceJoined_cons (x : String) (l : List String) :
    spaceJoined (x :: l) = x ++ (l.map (fun s => " " ++ s)).foldr (· ++ ·) "" := by
  induction l generalizing x with
  | nil => simp [spaceJoined]
  | cons y t ih =>
    simp only [spaceJoined, List.map, List.foldr, ih y]
    simp [String.append_assoc]

/-- C8: for every argument list the print builtin writes the
space-separated str forms of the arguments followed by a single trailing
newline to the stdout sink, and returns None. -/
theorem C8_print_builtin (args : List MontyObject) :
    printBuiltin args = (spaceJoined (args.map objectStr) ++ "\n", MontyObject.none) := by
  unfold printBuiltin
  match args with
  | [] => rfl
  | a :: rest =>
    simp only [printLoop, if_pos rfl, printLoop_succ rest 0, List.map, spaceJoined_cons,
      List.map_map]
    rfl

/-! ### Theorems for claims C2, C9, C10, C7 and the C5 counterexample -/

/-- Keys present after a string-keyed set_item: the inserted key or a key
that was already present. -/
theorem dictSetStr_keys (k : String) (v : HostValue) :
    ∀ ps p, p ∈ dictSetStr ps k v → p.1 = k ∨ p.1 ∈ ps.map Prod.fst := by
  intro ps
  induction ps with
  | nil =>
    intro p hp
    simp only [dictSetStr, List.mem_singleton] at hp
    rw [hp]
    exact Or.inl rfl
  | cons q rest ih =>
    rcases q with ⟨k2, v2⟩
    intro p hp
    rw [dictSetStr] at hp
    by_cases hk : (k2 == k) = true
    · simp only [hk, if_true, List.mem_cons] at hp
      rcases hp with h | h
      · rw [h]
        exact Or.inl (eq_of_beq hk)
      · exact Or.inr (List.mem_cons.2 (Or.inr (List.mem_map_of_mem Prod.fst h)))
    · simp only [hk, if_false, List.mem_cons, Bool.false_eq_true] at hp
      rcases hp with h | h
      · rw [h]
        exact Or.inr (List.mem_cons.2 (Or.inl rfl))
      · rcases ih p h with h1 | h1
        · exact Or.inl h1
        · exact Or.inr (List.mem_cons.2 (Or.inr h1))

/-- Every key of a kwargs dict built by the dataclass_to_py loop is either
a declared field name or a key of the accumulator. -/
theorem buildKwargs_keys (reg : DcRegistry) (fieldNames : List String) :
    ∀ (attrs : List (MontyObject × MontyObject)) acc p,
      p ∈ buildKwargs reg fieldNames acc attrs →
        p.1 ∈ fieldNames ∨ p.1 ∈ acc.map Prod.fst := by
  intro attrs
  induction attrs with
  | nil =>
    intro acc p hp
    rw [buildKwargs] at hp
    exact Or.inr (List.mem_map_of_mem Prod.fst hp)
  | cons q rest ih =>
    rcases q with ⟨k, v⟩
    intro acc p hp
    cases k with
    | str s =>
      rw [buildKwargs] at hp
      by_cases hs : (fieldNames.any (fun f => f == s)) = true
      · simp only [hs, if_true] at hp
        rcases ih _ p hp with h1 | h1
        · exact Or.inl h1
        · rcases List.mem_map.1 h1 with ⟨q2, hq2, hfst⟩
          rcases dictSetStr_keys s (montyToPy reg v) acc q2 hq2 with h2 | h2
          · left
            rw [← hfst, h2]
            rcases List.any_eq_true.1 hs with ⟨f, hf, hbeq⟩
            rw [← eq_of_beq hbeq]
            exact hf
          · right
            rw [← hfst]
            exact h2
      · simp only [hs, if_false, Bool.false_eq_true] at hp
        exact ih acc p hp
    | int n =>
      rw [buildKwargs] at hp
      exacts [ih acc p hp, fun _ h => MontyObject.noConfusion h]
    | bool b =>
      rw [buildKwargs] at hp
      exacts [ih acc p hp, fun _ h => MontyObject.noConfusion h]
    | none =>
      rw [buildKwargs] at hp
      exacts [ih acc p hp, fun _ h => MontyObject.noConfusion h]
    | list xs =>
      rw [buildKwargs] at hp
      exacts [ih acc p hp, fun _ h => MontyObject.noConfusion h]
    | range m =>
      rw [buildKwargs] at hp
      exacts [ih acc p hp, fun _ h => MontyObject.noConfusion h]
    | exc e =>
      rw [buildKwargs] at hp
      exacts [ih acc p hp, fun _ h => MontyObject.noConfusion h]
    | dataclass a b c d f =>
      rw [buildKwargs] at hp
      exacts [ih acc p hp, fun _ h => MontyObject.noConfusion h]

/-- C2: converting an engine record back to a host value: when its type id
is registered, dataclass_to_py builds an instance of the original host
type from constructor kwargs whose keys are all declared field names
(attrs entries with undeclared or non-string keys are dropped); when the
type id is absent, it builds a PyUnknownDataclass stand-in instead. -/
theorem C2_dataclass_to_py (reg : DcRegistry) (name : String) (typeId : Nat)
    (fieldNames : List String) (attrs : List (MontyObject × MontyObject))
    (frozen : Bool) :
    (∀ ty, regGet reg typeId = some ty →
      dataclass_to_py reg name typeId fieldNames attrs frozen
          = HostValue.inst ty (buildKwargs reg fieldNames [] attrs) ∧
        ∀ p ∈ buildKwargs reg fieldNames [] attrs, p.1 ∈ fieldNames) ∧
      (regGet reg typeId = Option.none →
        dataclass_to_py reg name typeId fieldNames attrs frozen
          = HostValue.unknownRecord name fieldNames (buildAttrsDict reg [] attrs) frozen) := by
  constructor
  · intro ty h
    refine ⟨by rw [dataclass_to_py, h], ?_⟩
    intro p hp
    rcases buildKwargs_keys reg fieldNames attrs [] p hp with h1 | h1
    · exact h1
    · simp at h1
  · intro h
    rw [dataclass_to_py, h]

/-- C2 witness: with type id 7 registered, a Point-like record with a
declared field x and an undeclared extra attr reconstructs as an instance
of the original type whose kwargs keys all lie in the declared fields. -/
theorem C2_dataclass_to_py_witness :
    dataclass_to_py [(7, 7)] "P" 7 ["x"]
        [(MontyObject.str "x", MontyObject.int 1), (MontyObject.str "extra", MontyObject.int 5)]
        true
      = HostValue.inst 7
          (buildKwargs [(7, 7)] ["x"] []
            [(MontyObject.str "x", MontyObject.int 1), (MontyObject.str "extra", MontyObject.int 5)]) ∧
      ∀ p ∈ buildKwargs [(7, 7)] ["x"] []
          [(MontyObject.str "x", MontyObject.int 1), (MontyObject.str "extra", MontyObject.int 5)],
        p.1 ∈ ["x"] :=
  (C2_dataclass_to_py [(7, 7)] "P" 7 ["x"]
    [(MontyObject.str "x", MontyObject.int 1), (MontyObject.str "extra", MontyObject.int 5)]
    true).1 7 rfl

/-- C9: dispatching a method call whose positional argument list is empty
returns an error reply carrying the RuntimeError message "Method call
missing self argument" and never a Return reply, for every host oracle,
result conversion, registry, method name and kwargs list. -/
theorem C9_dispatch_missing_self (oracle : HostOracle)
    (pyToMonty : HostValue → Except PyErr MontyObject) (reg : DcRegistry)
    (functionName : String) (kwargs : List (MontyObject × MontyObject)) :
    dispatch_method_call oracle pyToMonty reg functionName [] kwargs
        = .error ⟨"RuntimeError", "Method call missing self argument"⟩ ∧
      ∀ v, dispatch_method_call oracle pyToMonty reg functionName [] kwargs
        ≠ ExternalResult.ret v := by
  refine ⟨rfl, ?_⟩
  intro v h
  have h1 : dispatch_method_call oracle pyToMonty reg functionName [] kwargs
      = .error ⟨"RuntimeError", "Method call missing self argument"⟩ := rfl
  rw [h1] at h
  exact ExternalResult.noConfusion h

/-- C9 witness: dispatching sum with no positional arguments against the
rejecting oracle and conversion produces the missing-self error reply and
is not the Return reply carrying None. -/
theorem C9_dispatch_missing_self_witness :
    dispatch_method_call nullOracle nullPyToMonty [] "sum" [] []
        = .error ⟨"RuntimeError", "Method call missing self argument"⟩ ∧
      dispatch_method_call nullOracle nullPyToMonty [] "sum" [] []
        ≠ ExternalResult.ret MontyObject.none :=
  ⟨(C9_dispatch_missing_self nullOracle nullPyToMonty [] "sum" []).1,
    (C9_dispatch_missing_self nullOracle nullPyToMonty [] "sum" []).2 MontyObject.none⟩

/-- C10: comparing an UnknownDataclass with any host value that is not
itself an UnknownDataclass yields Ok(false): no error is raised and the
result is false regardless of the other value. -/
theorem C10_eq_non_record (selfName : String)
    (selfAttrs : List (HostValue × HostValue)) (other : HostValue)
    (h : ∀ n f a fr, other ≠ HostValue.unknownRecord n f a fr) :
    unknownDataclassEq selfName selfAttrs other = .ok false := by
  cases other with
  | unknownRecord n f a fr => exact absurd rfl (h n f a fr)
  | int i => rfl
  | str s => rfl
  | bool b => rfl
  | none => rfl
  | list xs => rfl
  | range n => rfl
  | exc e => rfl
  | inst t kw => rfl

/-- C10 witness: an UnknownDataclass compared with the Int 3 gives
Ok(false). -/
theorem C10_eq_non_record_witness :
    unknownDataclassEq "P" [] (HostValue.int 3) = .ok false :=
  C10_eq_non_record "P" [] (HostValue.int 3)
    (fun _ _ _ _ h => HostValue.noConfusion h)

/-- The hash loop with an accumulator equals the declaration-order hash
trace appended to the accumulator. -/
theorem hashLoop_eq_trace (valueHash : HostValue → Except PyErr Int)
    (attrs : List (HostValue × HostValue)) :
    ∀ fieldNames st, hashLoop valueHash attrs fieldNames st
      = (hashTrace valueHash attrs fieldNames).map (fun t => st ++ t) := by
  intro fieldNames
  induction fieldNames with
  | nil =>
    intro st
    simp [hashLoop, hashTrace, Except.map]
  | cons f rest ih =>
    intro st
    rw [hashLoop, hashTrace]
    cases hget : dictGet attrs (.str f) with
    | some v =>
      cases hv : valueHash v with
      | ok h =>
        simp only [ih]
        cases ht : hashTrace valueHash attrs rest with
        | ok t => simp [hv, ht, Except.map, Except.bind, bind, pure, Except.pure, List.append_assoc]
        | error e => simp [hv, ht, Except.map, Except.bind, bind, pure, Except.pure]
      | error e => simp [hv, Except.map, Except.bind, bind, pure, Except.pure]
    | none =>
      simp only [ih]
      cases ht : hashTrace valueHash attrs rest with
      | ok t => simp [ht, Except.map, Except.bind, bind, pure, Except.pure, List.append_assoc]
      | error e => simp [ht, Except.map, Except.bind, bind, pure, Except.pure]

/-- C7: the UnknownDataclass hash is defined only for frozen instances: a
non-frozen instance raises the host unhashable-type error, and a frozen
one hashes the declaration-order trace in which every declared field
contributes its name followed by the hash of its value. -/
theorem C7_unknown_hash (valueHash : HostValue → Except PyErr Int)
    (finish : List HashItem → Int) (fieldNames : List String)
    (attrs : List (HostValue × HostValue)) :
    unknownDataclassHash valueHash finish fieldNames attrs false
        = .error (.typeError ("unhashable type: \x27UnknownDataclass\x27")) ∧
      unknownDataclassHash valueHash finish fieldNames attrs true
        = (hashTrace valueHash attrs fieldNames).map finish := by
  refine ⟨rfl, ?_⟩
  rw [unknownDataclassHash]
  rw [hashLoop_eq_trace]
  cases ht : hashTrace valueHash attrs fieldNames with
  | ok t => simp [ht, Except.map]
  | error e => simp [ht, Except.map]

/-- C5 counterexample: two UnknownDataclass values with the same name and
the same attr key/value pairs in different insertion order compare equal
(the __eq__ of dataclass.rs compares attrs with PyDict equality, which is
order-insensitive), contradicting the claimed order-sensitive
inequality. -/
theorem C5_counterexample :
    unknownDataclassEq "P"
        [(HostValue.str "a", HostValue.int 1), (HostValue.str "b", HostValue.int 2)]
        (HostValue.unknownRecord "P" ["a", "b"]
          [(HostValue.str "b", HostValue.int 2), (HostValue.str "a", HostValue.int 1)] true)
      = .ok true := by
  simp [unknownDataclassEq, pyDictEq, dictSubset, findAndCompare, pyBeq]

/-! ### Order-insensitivity of UnknownDataclass equality (claim C5) -/

/-- Key freshness as a universally quantified statement. -/
theorem keyFresh_iff (k : HostValue) :
    ∀ ps, keyFresh k ps = true ↔
      ∀ p ∈ ps, pyBeq k p.1 = false ∧ pyBeq p.1 k = false := by
  intro ps
  induction ps with
  | nil => simp [keyFresh]
  | cons q rest ih =>
    rcases q with ⟨k2, v2⟩
    simp only [keyFresh, Bool.and_eq_true, Bool.not_eq_true', ih, List.forall_mem_cons]

/-- Distinctness of dict keys is pairwise key-distinctness. -/
theorem keysDistinct_pairwise :
    ∀ ps, keysDistinct ps = true ↔ ps.Pairwise keyDistinctRel := by
  intro ps
  induction ps with
  | nil => simp [keysDistinct]
  | cons q rest ih =>
    rcases q with ⟨k2, v2⟩
    simp only [keysDistinct, Bool.and_eq_true, ih, List.pairwise_cons, keyFresh_iff,
      keyDistinctRel]

/-- A dict entry is found and matched by the scan when it is a member of a
dict with pairwise distinct keys and its key and value compare equal to
themselves. -/
theorem findAndCompare_of_mem (k v : HostValue) :
    ∀ b, (k, v) ∈ b → b.Pairwise keyDistinctRel → pyBeq k k = true →
      pyBeq v v = true → findAndCompare k v b = true := by
  intro b
  induction b with
  | nil =>
    intro h
    simp at h
  | cons q rest ih =>
    rcases q with ⟨k2, v2⟩
    intro hmem hpw hk hv
    rw [findAndCompare]
    rcases List.mem_cons.1 hmem with h1 | h1
    · rcases Prod.mk.injEq .. ▸ h1 with ⟨hke, hve⟩
      rw [← hke, ← hve]
      simp [hk, hv]
    · have hR := (List.pairwise_cons.1 hpw).1 (k, v) h1
      have hcond : pyBeq k k2 = false := hR.2
      simp only [hcond, Bool.false_eq_true, if_false]
      exact ih h1 (List.pairwise_cons.1 hpw).2 hk hv

/-- A dict is a subset of another when every entry is found and matched. -/
theorem dictSubset_of_forall :
    ∀ (a b : List (HostValue × HostValue)),
      (∀ p ∈ a, findAndCompare p.1 p.2 b = true) → dictSubset a b = true := by
  intro a b
  induction a with
  | nil =>
    intro _
    rw [dictSubset]
  | cons q rest ih =>
    rcases q with ⟨k, v⟩
    intro h
    rw [dictSubset, Bool.and_eq_true]
    exact ⟨h (k, v) (List.mem_cons_self ..),
      ih (fun p hp => h p (List.mem_cons.2 (Or.inr hp)))⟩

/-- Well-formedness of a list passes to its elements. -/
theorem wfValList_mem :
    ∀ xs, wfValList xs = true → ∀ x ∈ xs, wfVal x = true := by
  intro xs
  induction xs with
  | nil =>
    intro _ x hx
    simp at hx
  | cons a rest ih =>
    intro h x hx
    rw [wfValList, Bool.and_eq_true] at h
    rcases List.mem_cons.1 hx with rfl | hx
    · exact h.1
    · exact ih h.2 x hx

/-- Well-formedness of a kwargs list passes to its values. -/
theorem wfValKw_mem :
    ∀ kw, wfValKw kw = true → ∀ p ∈ kw, wfVal p.2 = true := by
  intro kw
  induction kw with
  | nil =>
    intro _ p hp
    simp at hp
  | cons q rest ih =>
    rcases q with ⟨k, v⟩
    intro h p hp
    rw [wfValKw, Bool.and_eq_true] at h
    rcases List.mem_cons.1 hp with rfl | hp
    · exact h.1
    · exact ih h.2 p hp

/-- Well-formedness of a dict passes to its keys and values. -/
theorem wfPairs_mem :
    ∀ ps, wfPairs ps = true → ∀ p ∈ ps, wfVal p.1 = true ∧ wfVal p.2 = true := by
  intro ps
  induction ps with
  | nil =>
    intro _ p hp
    simp at hp
  | cons q rest ih =>
    rcases q with ⟨k, v⟩
    intro h p hp
    rw [wfPairs, Bool.and_eq_true, Bool.and_eq_true] at h
    rcases List.mem_cons.1 hp with rfl | hp
    · exact ⟨h.1.1, h.1.2⟩
    · exact ih h.2 p hp

/-- Elementwise reflexivity lifts to list equality. -/
theorem pyBeqList_refl :
    ∀ xs, (∀ x ∈ xs, pyBeq x x = true) → pyBeqList xs xs = true := by
  intro xs
  induction xs with
  | nil =>
    intro _
    rw [pyBeqList]
  | cons a rest ih =>
    intro h
    rw [pyBeqList, Bool.and_eq_true]
    exact ⟨h a (List.mem_cons_self ..),
      ih (fun x hx => h x (List.mem_cons.2 (Or.inr hx)))⟩

/-- Valuewise reflexivity lifts to kwargs equality. -/
theorem pyBeqKw_refl :
    ∀ kw, (∀ p ∈ kw, pyBeq p.2 p.2 = true) → pyBeqKw kw kw = true := by
  intro kw
  induction kw with
  | nil =>
    intro _
    rw [pyBeqKw]
  | cons q rest ih =>
    rcases q with ⟨k, v⟩
    intro h
    rw [pyBeqKw, Bool.and_eq_true, Bool.and_eq_true]
    refine ⟨⟨beq_self_eq_true k, h (k, v) (List.mem_cons_self ..)⟩, ?_⟩
    exact ih (fun p hp => h p (List.mem_cons.2 (Or.inr hp)))

/-- A dict with distinct keys and entrywise-reflexive entries is
dict-equal to itself. -/
theorem pyDictEq_of_wfRefl :
    ∀ ps, keysDistinct ps = true →
      (∀ p ∈ ps, pyBeq p.1 p.1 = true ∧ pyBeq p.2 p.2 = true) →
      pyDictEq ps ps = true := by
  intro ps hkd h
  rw [pyDictEq, Bool.and_eq_true]
  refine ⟨beq_self_eq_true _, dictSubset_of_forall ps ps ?_⟩
  intro p hp
  exact findAndCompare_of_mem p.1 p.2 ps (Prod.mk.eta ▸ hp)
    ((keysDistinct_pairwise ps).1 hkd) (h p hp).1 (h p hp).2

/-- Python equality is reflexive on well-formed values (strong induction
on size). -/
theorem pyBeqReflAux :
    ∀ (n : Nat) (v : HostValue), sizeOf v ≤ n → wfVal v = true →
      pyBeq v v = true := by
  intro n
  induction n with
  | zero =>
    intro v hv _
    exfalso
    cases v <;> simp at hv
  | succ n ih =>
    intro v hv hwf
    cases v with
    | int i =>
      rw [pyBeq]
      exact beq_self_eq_true i
    | str s =>
      rw [pyBeq]
      exact beq_self_eq_true s
    | bool b =>
      rw [pyBeq]
      exact beq_self_eq_true b
    | none => rw [pyBeq]
    | range m =>
      rw [pyBeq]
      exact beq_self_eq_true m
    | exc e =>
      rw [pyBeq]
      exact beq_self_eq_true e
    | list xs =>
      rw [pyBeq]
      rw [wfVal] at hwf
      apply pyBeqList_refl
      intro x hx
      have h1 := List.sizeOf_lt_of_mem hx
      have h2 : sizeOf (HostValue.list xs) = 1 + sizeOf xs := by simp
      exact ih x (by omega) (wfValList_mem xs hwf x hx)
    | inst t kw =>
      rw [pyBeq, Bool.and_eq_true]
      rw [wfVal] at hwf
      refine ⟨beq_self_eq_true t, pyBeqKw_refl kw ?_⟩
      intro p hp
      have h1 := List.sizeOf_lt_of_mem hp
      have h2 : sizeOf (HostValue.inst t kw) = 1 + sizeOf t + sizeOf kw := by simp
      rcases p with ⟨pk, pv⟩
      have h3 : sizeOf ((pk, pv) : String × HostValue) = 1 + sizeOf pk + sizeOf pv := by
        simp
      exact ih pv (by omega) (wfValKw_mem kw hwf (pk, pv) hp)
    | unknownRecord nm fl a fr =>
      rw [pyBeq, Bool.and_eq_true]
      rw [wfVal, wfDict, Bool.and_eq_true] at hwf
      refine ⟨beq_self_eq_true nm, pyDictEq_of_wfRefl a hwf.1 ?_⟩
      intro p hp
      have hw := wfPairs_mem a hwf.2 p hp
      have h1 := List.sizeOf_lt_of_mem hp
      have h2 : sizeOf (HostValue.unknownRecord nm fl a fr)
          = 1 + sizeOf nm + sizeOf fl + sizeOf a + sizeOf fr := by simp
      rcases p with ⟨pk, pv⟩
      have h3 : sizeOf ((pk, pv) : HostValue × HostValue) = 1 + sizeOf pk + sizeOf pv := by
        simp
      exact ⟨ih pk (by omega) hw.1, ih pv (by omega) hw.2⟩

/-- Python equality is reflexive on well-formed values. -/
theorem pyBeqRefl (v : HostValue) (h : wfVal v = true) : pyBeq v v = true :=
  pyBeqReflAux (sizeOf v) v (Nat.le_refl _) h

/-- C5 amended: two UnknownDataclass host values compare equal iff both
are UnknownDataclass values with identical name and attrs equal as
unordered key-to-value mappings (PyDict equality); in particular two
UnknownDataclass values with the same name and the same attr key/value
pairs in different insertion order compare equal — the comparison is
order-insensitive. -/
theorem C5_eq_order_insensitive :
    (∀ (selfName : String) (selfAttrs : List (HostValue × HostValue))
        (otherName : String) (otherFields : List String)
        (otherAttrs : List (HostValue × HostValue)) (otherFrozen : Bool),
      unknownDataclassEq selfName selfAttrs
          (HostValue.unknownRecord otherName otherFields otherAttrs otherFrozen)
        = .ok (selfName == otherName && pyDictEq selfAttrs otherAttrs)) ∧
      (∀ (name : String) (otherFields : List String) (otherFrozen : Bool)
          (a b : List (HostValue × HostValue)),
        wfDict a = true → a.Perm b →
          unknownDataclassEq name a
              (HostValue.unknownRecord name otherFields b otherFrozen)
            = .ok true) := by
  have hchar : ∀ (sn : String) (sa : List (HostValue × HostValue)) (onm : String)
      (ofl : List String) (oa : List (HostValue × HostValue)) (ofr : Bool),
      unknownDataclassEq sn sa (HostValue.unknownRecord onm ofl oa ofr)
        = .ok (sn == onm && pyDictEq sa oa) := by
    intro sn sa onm ofl oa ofr
    rw [unknownDataclassEq]
    by_cases h : (sn == onm) = true
    · have hb : (sn != onm) = false := by simp [bne, h]
      simp [hb, h]
    · have h2 : (sn == onm) = false := by
        rcases Bool.eq_false_or_eq_true (sn == onm) with h3 | h3
        · exact absurd h3 h
        · exact h3
      have hb : (sn != onm) = true := by simp [bne, h2]
      simp [hb, h2]
  refine ⟨hchar, ?_⟩
  intro name ofl ofr a b hwf hperm
  rw [wfDict, Bool.and_eq_true] at hwf
  have hpd : pyDictEq a b = true := by
    rw [pyDictEq, Bool.and_eq_true]
    constructor
    · rw [hperm.length_eq]
      exact beq_self_eq_true _
    · apply dictSubset_of_forall
      intro p hp
      have hpw_a : a.Pairwise keyDistinctRel := (keysDistinct_pairwise a).1 hwf.1
      have hpw_b : b.Pairwise keyDistinctRel :=
        hpw_a.perm hperm (fun h => ⟨h.2, h.1⟩)
      have hmem_b : p ∈ b := hperm.mem_iff.1 hp
      have hw := wfPairs_mem a hwf.2 p hp
      exact findAndCompare_of_mem p.1 p.2 b (Prod.mk.eta ▸ hmem_b) hpw_b
        (pyBeqRefl p.1 hw.1) (pyBeqRefl p.2 hw.2)
  rw [hchar, hpd, beq_self_eq_true name]
  rfl

/-- C5 amended witness: the concrete attr dicts x=1, y=2 and y=2, x=1 are
a permutation of a well-formed dict, so the two UnknownDataclass values
with the same name compare equal. -/
theorem C5_eq_order_insensitive_witness :
    unknownDataclassEq "Q"
        [(HostValue.str "x", HostValue.int 1), (HostValue.str "y", HostValue.int 2)]
        (HostValue.unknownRecord "Q" ["x", "y"]
          [(HostValue.str "y", HostValue.int 2), (HostValue.str "x", HostValue.int 1)]
          false)
      = .ok true :=
  C5_eq_order_insensitive.2 "Q" ["x", "y"] false
    [(HostValue.str "x", HostValue.int 1), (HostValue.str "y", HostValue.int 2)]
    [(HostValue.str "y", HostValue.int 2), (HostValue.str "x", HostValue.int 1)]
    (by simp [wfDict, keysDistinct, keyFresh, wfPairs, wfVal, pyBeq])
    (List.Perm.swap (HostValue.str "y", HostValue.int 2)
      (HostValue.str "x", HostValue.int 1) [])

/-! ### Theorems for claims C3 and C6 -/

/-- C3: whenever evaluation of a program reaches a method call on a record
while the evaluator runs in standard mode (no suspension handler), the run
ends with NotImplementedError naming the method; in particular running
point.sum() with the frozen Point record (x=1, y=2) bound to point raises
NotImplementedError("Method call \x27sum\x27 not implemented with standard
execution"). -/
theorem C3_standard_mode_method_call :
    (∀ (prog : List Stmt) (env : List (String × MontyObject))
        (recv : MontyObject) (m : String) (margs : List MontyObject),
      execStmts env .none prog = .suspend recv m margs →
        standardRun prog env
          = .raise (.notImplementedError
              ("Method call " ++ sq m ++ " not implemented with standard execution"))) ∧
      pointRun.run_no_limits [pointObj]
        = .raise (.notImplementedError
            ("Method call \x27sum\x27 not implemented with standard execution")) := by
  constructor
  · intro prog env recv m margs h
    rw [standardRun, h]
  · rfl

/-- C3 witness: standard-mode execution of point.sum() in the environment
binding point to the Point record ends with the NotImplementedError,
obtained from the general statement at the concrete suspension. -/
theorem C3_standard_mode_method_call_witness :
    standardRun pointRun.ast [("point", pointObj)]
      = .raise (.notImplementedError
          ("Method call " ++ sq "sum" ++ " not implemented with standard execution")) :=
  C3_standard_mode_method_call.1 pointRun.ast [("point", pointObj)] pointObj "sum"
    [pointObj] rfl

/-- C6: running the compiled program 1 + 2 with no arguments returns
Return(Int(3)), and running the same compiled program a second time (each
run builds a fresh environment from the arguments while the AST is
retained) again returns Return(Int(3)). -/
theorem C6_repeat_exec :
    addRun.run_no_limits [] = .ret (.int 3) ∧
      addRun.run_no_limits [] = .ret (.int 3) :=
  ⟨rfl, rfl⟩

end Monty
